import Mathlib

/-!
Verification of the email semantic retrieval engine of the email-agent
repository.

The repository ships the Next.js frontend (src/Frontend) together with
deployment scripts and documentation.  The retrieval engine itself — the
backend service behind the endpoints `/api/search/semantic`,
`/api/search/stats`, `/api/search/clear`, `/api/search/remove-sent-emails`,
`/api/emails/load-to-vector` and `/api/chat/context` that the frontend
calls — is not part of the shipped sources, so its data model and
operations are modelled here from the specification (sections 3, 4 and 7),
while the frontend-side behaviour (`browseAll`, `performSearch`,
`NotificationListener`) is embedded directly from the TypeScript sources.
-/

namespace EmailAgent

/-- Modelled from the spec: section 3, `EmailDocument`, the normalized email
record handed to the (missing) indexing backend by the ingestion layer. -/
structure EmailDocument where
  account_id : Nat
  message_id : String
  subject : String
  sender : String
  date : Nat
  body_text : String
  ai_category : Option String
  ai_urgency : Option Nat
  is_sent_by_agent : Bool
  attachment_text_excerpts : List String
deriving DecidableEq, Repr

/-- Truncation of a string to at most `n` characters, used for the body
excerpt in canonical text and for excerpt truncation in the context
assembler. -/
def truncateStr (s : String) (n : Nat) : String :=
  String.mk (s.data.take n)

/-- Modelled from the spec: section 4.1, `to_text` of the missing Embedder —
deterministic concatenation of subject, sender, a body excerpt truncated to a
fixed character budget (1000 chars), category/urgency tags if present, and
capped attachment text excerpts. -/
def to_text (d : EmailDocument) : String :=
  d.subject ++ " " ++ d.sender ++ " " ++ truncateStr d.body_text 1000 ++
    (match d.ai_category with
      | some c => " " ++ c
      | none => "") ++
    (match d.ai_urgency with
      | some u => " urgency:" ++ toString u
      | none => "") ++
    String.join (d.attachment_text_excerpts.map (fun t => " " ++ truncateStr t 200))

/-- Modelled from the spec: section 3, `VectorRecord` of the missing Vector
Index.  The composite id `hash(account_id, message_id)` is represented by the
pair of fields themselves (the spec declares it globally unique per
(account, email)). -/
structure VectorRecord where
  account_id : Nat
  message_id : String
  embedding : List Int
  canonical_text : String
  date : Nat
  is_sent_by_agent : Bool
  generation : Nat
deriving DecidableEq, Repr

/-- Composite-key equality on vector records: same (account_id, message_id). -/
def sameKey (r₁ r₂ : VectorRecord) : Bool :=
  r₁.account_id == r₂.account_id && r₁.message_id == r₂.message_id

/-- Modelled from the spec: sections 3 and 4.2, the account-partitioned
in-memory Vector Index of the missing backend: current records plus the
per-account generation counters used to discard writes racing a clear. -/
structure VectorStore where
  records : List VectorRecord
  gens : List (Nat × Nat)
deriving DecidableEq, Repr

/-- Current generation counter of an account (0 before the first clear). -/
def genOf (s : VectorStore) (a : Nat) : Nat :=
  match s.gens.find? (fun p => p.1 == a) with
  | some p => p.2
  | none => 0

/-- Modelled from the spec: section 5, `init()` constructs the empty index. -/
def VectorStore.init : VectorStore := { records := [], gens := [] }

/-- Modelled from the spec: section 4.2, `upsert` of the missing Vector
Index — idempotent by id; an upsert whose stamped generation is older than
the account's current generation is a no-op; otherwise the record replaces
any record with the same composite key. -/
def upsert (s : VectorStore) (rec : VectorRecord) : VectorStore :=
  if rec.generation < genOf s rec.account_id then s
  else { s with records := rec :: s.records.filter (fun r => !(sameKey r rec)) }

/-- Modelled from the spec: section 4.2, `count(account_id)` of the missing
Vector Index. -/
def count (s : VectorStore) (a : Nat) : Nat :=
  (s.records.filter (fun r => r.account_id == a)).length

/-- Modelled from the spec: section 4.5, `stats(account_id)` of the missing
Lifecycle Manager (surfaced to the frontend as `/api/search/stats`). -/
structure AccountStats where
  cnt : Nat
deriving DecidableEq, Repr

/-- Modelled from the spec: section 4.5, `stats(account_id)` returns the
account's current record count. -/
def stats (s : VectorStore) (a : Nat) : AccountStats :=
  ⟨count s a⟩

/-- Modelled from the spec: section 4.2, `clear(account_id)` of the missing
Vector Index — increments the account's generation counter first, then
removes all current records for the account. -/
def clear_account (s : VectorStore) (a : Nat) : VectorStore :=
  { records := (s.records.filter (fun r => !(r.account_id == a))),
    gens := (a, genOf s a + 1) :: s.gens.filter (fun p => !(p.1 == a)) }

/-- Records currently stored for one account, in storage order. -/
def accountRecords (s : VectorStore) (a : Nat) : List VectorRecord :=
  s.records.filter (fun r => r.account_id == a)

/-- Modelled from the spec: the squared-L2 distance used by the (missing)
vector index backend for nearest-neighbour ranking; lower distance means
more similar. -/
def distL2 (u v : List Int) : Int :=
  ((u.zip v).map (fun p => (p.1 - p.2) * (p.1 - p.2))).sum

/-- Modelled from the spec: section 3, one element of a `RetrievalResult`
sequence: message id, distance score, and the metadata the frontend renders
(account, date, agent flag) together with the indexed document text. -/
structure RetrievalResult where
  message_id : String
  score : Int
  account_id : Nat
  date : Nat
  is_sent_by_agent : Bool
  document : String
deriving DecidableEq, Repr

/-- Scoring one stored record against a query vector. -/
def scoreRecord (qv : List Int) (r : VectorRecord) : RetrievalResult :=
  { message_id := r.message_id
    score := distL2 qv r.embedding
    account_id := r.account_id
    date := r.date
    is_sent_by_agent := r.is_sent_by_agent
    document := r.canonical_text }

/-- Modelled from the spec: section 4.3 ranking order — ascending distance,
ties broken by descending date (the more recent email wins). -/
def rankLE (x y : RetrievalResult) : Prop :=
  x.score < y.score ∨ (x.score = y.score ∧ y.date ≤ x.date)

instance : DecidableRel rankLE := fun x y =>
  inferInstanceAs (Decidable (x.score < y.score ∨ (x.score = y.score ∧ y.date ≤ x.date)))

instance : IsTotal RetrievalResult rankLE where
  total x y := by
    rcases lt_trichotomy x.score y.score with h | h | h
    · exact Or.inl (Or.inl h)
    · rcases Nat.le_total y.date x.date with hd | hd
      · exact Or.inl (Or.inr ⟨h, hd⟩)
      · exact Or.inr (Or.inr ⟨h.symm, hd⟩)
    · exact Or.inr (Or.inl h)

instance : IsTrans RetrievalResult rankLE where
  trans x y z hxy hyz := by
    rcases hxy with h₁ | ⟨e₁, d₁⟩
    · rcases hyz with h₂ | ⟨e₂, _⟩
      · exact Or.inl (h₁.trans h₂)
      · exact Or.inl (e₂ ▸ h₁)
    · rcases hyz with h₂ | ⟨e₂, d₂⟩
      · exact Or.inl (e₁ ▸ h₂)
      · exact Or.inr ⟨e₁.trans e₂, d₂.trans d₁⟩

/-- Modelled from the spec: section 4.2, `query(account_id, vector, k)` of
the missing Vector Index — restrict to the account's records, score, sort
ascending by distance with descending-date tie-break, truncate to `k`. -/
def query (s : VectorStore) (a : Nat) (qv : List Int) (k : Nat) :
    List RetrievalResult :=
  (((s.records.filter (fun r => r.account_id == a)).map
      (scoreRecord qv)).insertionSort rankLE).take k

/-- Modelled from the spec: section 7, the error taxonomy of the missing
retrieval backend (only the validation case is reachable in this model:
`NotFound` is by design an empty success, and the embedder is a pure
function here, so `EmbeddingUnavailable` does not arise). -/
inductive SearchError
  | validationError
deriving DecidableEq, Repr

/-- Modelled from the spec: section 4.3, `search(account_id, query_text, k)`
of the missing Retrieval Planner — reject `k ≤ 0` or empty query text with a
validation error before touching the index, otherwise embed the query text
and run the account-scoped index query. -/
def search (embed : String → List Int) (s : VectorStore) (a : Nat)
    (q : String) (k : Int) : Except SearchError (List RetrievalResult) :=
  if k ≤ 0 ∨ q = "" then .error .validationError
  else .ok (query s a (embed q) k.toNat)

/-- Modelled from the spec: stamping a fresh `VectorRecord` for one
document at the account's current generation, with deterministic canonical
text and embedding. -/
def recordOf (embed : String → List Int) (s : VectorStore)
    (d : EmailDocument) : VectorRecord :=
  { account_id := d.account_id
    message_id := d.message_id
    embedding := embed (to_text d)
    canonical_text := to_text d
    date := d.date
    is_sent_by_agent := d.is_sent_by_agent
    generation := genOf s d.account_id }

/-- Modelled from the spec: indexing one `EmailDocument` (one item of
`index_batch`, surfaced to the frontend as `/api/emails/load-to-vector`):
embed the canonical text and upsert the stamped record. -/
def indexEmail (embed : String → List Int) (s : VectorStore)
    (d : EmailDocument) : VectorStore :=
  upsert s (recordOf embed s d)

/-- Number of records stored under the composite key (account, message id). -/
def keyCount (s : VectorStore) (a : Nat) (m : String) : Nat :=
  s.records.countP (fun r => r.account_id == a && r.message_id == m)

/-- Modelled from the spec: section 4.4, one `ContextItem` of the missing
Context Assembler: an excerpt of the source document plus the fields the
exclusion and ranking rules inspect. -/
structure ContextItem where
  message_id : String
  excerpt : String
  score : Int
  is_sent_by_agent : Bool
deriving DecidableEq, Repr

/-- Conversion of a retrieval result into a context item; the excerpt starts
as the full indexed document text. -/
def toContextItem (r : RetrievalResult) : ContextItem :=
  { message_id := r.message_id
    excerpt := r.document
    score := r.score
    is_sent_by_agent := r.is_sent_by_agent }

/-- Modelled from the spec: section 4.4, the generous initial `k` (5–10)
used by `assemble_context`; this model fixes 10. -/
def CONTEXT_K : Int := 10

/-- Modelled from the spec: section 4.4 — items after the first are added in
relevance order until the next item's excerpt would exceed the remaining
budget. -/
def takeBudget (budget : Nat) : List ContextItem → List ContextItem
  | [] => []
  | i :: rest =>
      if i.excerpt.length ≤ budget then
        i :: takeBudget (budget - i.excerpt.length) rest
      else []

/-- Modelled from the spec: section 4.4 budget rule — if even the single
highest-ranked item exceeds the budget alone, its excerpt is truncated (not
dropped) to fit; otherwise it is kept whole and the rest fill the remaining
budget. -/
def fitBudget (budget : Nat) : List ContextItem → List ContextItem
  | [] => []
  | first :: rest =>
      if first.excerpt.length ≤ budget then
        first :: takeBudget (budget - first.excerpt.length) rest
      else [{ first with excerpt := truncateStr first.excerpt budget }]

/-- Candidate context items for a chat turn: the top results of an
account-scoped search with the generous initial `k`, with every result whose
source document has `is_sent_by_agent = true` filtered out (the
anti-feedback-loop rule), in relevance order. -/
def contextCandidates (embed : String → List Int) (s : VectorStore) (a : Nat)
    (userMessage : String) : List ContextItem :=
  match search embed s a userMessage CONTEXT_K with
  | .error _ => []
  | .ok results =>
      (results.filter (fun r => !r.is_sent_by_agent)).map toContextItem

/-- Modelled from the spec: section 4.4,
`assemble_context(account_id, user_message, token_budget)` of the missing
Context Assembler (surfaced to the frontend via `/api/chat/context` and
`/api/chat/message`) — search with a generous `k`, filter out agent-sent
emails, then fill the character budget in relevance order; query-path
failures degrade to an empty context (section 7). -/
def assemble_context (embed : String → List Int) (s : VectorStore) (a : Nat)
    (userMessage : String) (token_budget : Nat) : List ContextItem :=
  fitBudget token_budget (contextCandidates embed s a userMessage)

/-- Aggregate character size of a context set. -/
def totalSize (l : List ContextItem) : Nat :=
  (l.map (fun c => c.excerpt.length)).sum

/-! ### Frontend embeddings

The definitions below are translated directly from the TypeScript sources
under src/Frontend. -/

/-- Vector-store statistics as the frontend receives them from
`/api/search/stats` (interface `VectorStats` in
src/Frontend/components/VectorViewer.tsx). -/
structure VectorStats where
  total_emails : Nat
  collection_name : String
deriving DecidableEq, Repr

/-- Request body of `/api/search/semantic` as built by the frontend
(`performSearch` and `browseAll` in src/Frontend/components/VectorViewer.tsx). -/
structure SemanticSearchRequest where
  query : String
  n_results : Nat
deriving DecidableEq, Repr

/-- JavaScript `a || d` on an optional-chained numeric field: the default is
used when the receiver is null/undefined or the field value is falsy (0). -/
def jsOrDefault (v : Option Nat) (dflt : Nat) : Nat :=
  match v with
  | none => dflt
  | some n => if n = 0 then dflt else n

/-- Request built by `browseAll` in src/Frontend/components/VectorViewer.tsx
(lines 91–114): query string literally `'email message'` and
`n_results: stats?.total_emails || 100`. -/
def browseAllRequest (stats? : Option VectorStats) : SemanticSearchRequest :=
  { query := "email message"
    n_results := jsOrDefault (stats?.map (fun s => s.total_emails)) 100 }

/-- Request built by `performSearch` in
src/Frontend/components/VectorViewer.tsx (lines 66–89): the user's query with
a fixed `n_results: 50`. -/
def performSearchRequest (searchQuery : String) : SemanticSearchRequest :=
  { query := searchQuery, n_results := 50 }

/-- Reading of claim C9's description of `browseAll`: `n_results` equals the
reported total indexed count, falling back to 100 only when stats are
unavailable. -/
def browseAllRequestClaimed (stats? : Option VectorStats) : SemanticSearchRequest :=
  { query := "email message"
    n_results :=
      match stats? with
      | none => 100
      | some s => s.total_emails }

/-- Email payload of a server-sent notification (interface
`EmailNotification` in src/Frontend/lib/api.ts, NotificationListener). -/
structure NotifEmail where
  subject : String
  sender : String
  date : String
  category : String
  is_spam : Bool
  urgency_score : Int
deriving DecidableEq, Repr

/-- Server-sent notification as received by `NotificationListener`
(src/Frontend/lib/api.ts): a type tag, an optional originating account id,
and an optional email payload. -/
structure EmailNotification where
  type : String
  account_id : Option Int
  email : Option NotifEmail
deriving DecidableEq, Repr

/-- Kinds of toast the listener can raise for a displayed notification. -/
inductive ToastKind
  | spamAlert
  | urgentWarning
  | newEmail
deriving DecidableEq, Repr

/-- Toast choice for a displayed email (NotificationListener in
src/Frontend/lib/api.ts): spam beats urgency (score ≥ 8) beats plain new
mail. -/
def toastFor (e : NotifEmail) : ToastKind :=
  if e.is_spam then .spamAlert
  else if 8 ≤ e.urgency_score then .urgentWarning
  else .newEmail

/-- The `onmessage` handler of `NotificationListener`
(src/Frontend/lib/api.ts, lines 1073–1126): keepalives are ignored; a
`new_email` notification with a payload is shown unless an active account id
is set and the notification's account id differs from it; when no active
account is set every notification is shown. Returns the toast raised, or
`none` when the notification is suppressed. -/
def handleNotification (activeAccountId : Option Int)
    (n : EmailNotification) : Option ToastKind :=
  if n.type = "keepalive" then none
  else
    match n.email with
    | none => none
    | some e =>
        if n.type = "new_email" then
          match activeAccountId with
          | some a => if n.account_id = some a then some (toastFor e) else none
          | none => some (toastFor e)
        else none

/-! ### Demonstration inputs used by witness theorems -/

/-- Deterministic embedder used in concrete evaluations. -/
def demoEmbed : String → List Int := fun s => [Int.ofNat s.length]

/-- One indexed record under account 1. -/
def demoRecord1 : VectorRecord :=
  { account_id := 1, message_id := "m1", embedding := [3]
    canonical_text := "pay", date := 5, is_sent_by_agent := false
    generation := 0 }

/-- A second indexed record under account 1 with a different embedding. -/
def demoRecord2 : VectorRecord :=
  { account_id := 1, message_id := "m2", embedding := [7]
    canonical_text := "lunch invite", date := 9, is_sent_by_agent := false
    generation := 0 }

/-- A record under account 2, used to exercise isolation and framing. -/
def demoRecord3 : VectorRecord :=
  { account_id := 2, message_id := "m3", embedding := [3]
    canonical_text := "other tenant", date := 4, is_sent_by_agent := false
    generation := 0 }

/-- A small store holding the three demonstration records. -/
def demoStore : VectorStore :=
  { records := [demoRecord1, demoRecord2, demoRecord3], gens := [] }

/-- The retrieval result produced for `demoRecord1` by the query vector
`[3]`. -/
def demoResult1 : RetrievalResult :=
  { message_id := "m1", score := 0, account_id := 1, date := 5
    is_sent_by_agent := false, document := "pay" }

/-- The retrieval result produced for `demoRecord2` by the query vector
`[3]`. -/
def demoResult2 : RetrievalResult :=
  { message_id := "m2", score := 16, account_id := 1, date := 9
    is_sent_by_agent := false, document := "lunch invite" }

/-- An email payload for notification demonstrations. -/
def demoNotifEmail : NotifEmail :=
  { subject := "Hello", sender := "a@b.c", date := "2024-01-01"
    category := "work", is_spam := false, urgency_score := 3 }

/-- A new-email notification originating from account 2. -/
def demoNotif : EmailNotification :=
  { type := "new_email", account_id := some 2, email := some demoNotifEmail }

/-! ### Shared helper lemmas -/

/-- Every element of an account-scoped index query carries that account id. -/
theorem account_of_mem_query {s : VectorStore} {a : Nat} {qv : List Int}
    {k : Nat} {r : RetrievalResult} (h : r ∈ query s a qv k) :
    r.account_id = a := by
  unfold query at h
  have h₁ : r ∈ ((s.records.filter (fun r => r.account_id == a)).map
      (scoreRecord qv)).insertionSort rankLE :=
    (List.take_sublist _ _).subset h
  rw [List.mem_insertionSort] at h₁
  obtain ⟨v, hv, rfl⟩ := List.mem_map.mp h₁
  have h₂ := (List.mem_filter.mp hv).2
  have h₃ : v.account_id = a := by simpa using h₂
  exact h₃

/-- A search with a positive `k` and a nonempty query text unfolds to the
account-scoped index query. -/
theorem search_eq_ok {embed : String → List Int} {s : VectorStore} {a : Nat}
    {q : String} {k : Int} (hk : 1 ≤ k) (hq : q ≠ "") :
    search embed s a q k = .ok (query s a (embed q) k.toNat) := by
  have hcond : ¬(k ≤ 0 ∨ q = "") := by
    rintro (h | h)
    · omega
    · exact hq h
  simp [search, hcond]

/-- An account with zero records yields an empty query result. -/
theorem query_of_count_zero {s : VectorStore} {a : Nat}
    (h0 : count s a = 0) (qv : List Int) (k : Nat) :
    query s a qv k = [] := by
  have hnil : s.records.filter (fun r => r.account_id == a) = [] :=
    List.length_eq_zero.mp h0
  simp [query, hnil]

/-! ### Claim theorems -/

/-- C1: every similarity query is scoped to exactly one `account_id` — for
distinct accounts `A ≠ B`, no result of `search A q k` carries metadata
`account_id = B` (the proof does not even need the disjointness of the two
accounts' indexed emails). -/
theorem search_account_isolation (embed : String → List Int)
    (s : VectorStore) (A B : Nat) (q : String) (k : Int) (hAB : A ≠ B)
    (res : List RetrievalResult)
    (hres : search embed s A q k = .ok res) :
    res.all (fun r => !(r.account_id == B)) = true := by
  rw [List.all_eq_true]
  intro r hr
  unfold search at hres
  split at hres
  · exact absurd hres (by simp)
  · have hq : query s A (embed q) k.toNat = res := by
      simpa using hres
    subst hq
    have hacc := account_of_mem_query hr
    simpa [hacc] using hAB

/-- Witness for C1 at a concrete store holding accounts 1 and 2. -/
theorem search_account_isolation_witness :
    [demoResult1, demoResult2].all (fun r => !(r.account_id == 2)) = true :=
  search_account_isolation demoEmbed demoStore 1 2 "pay" 5 (by decide)
    [demoResult1, demoResult2] (by rfl)

/-- C7: a search request with `k ≤ 0` or empty query text fails with a
validation error, and the result does not depend on the vector index at all
(the same outcome for any two stores), so the index is never accessed before
rejection. -/
theorem search_rejects_invalid (embed : String → List Int)
    (s₁ s₂ : VectorStore) (a : Nat) (q : String) (k : Int)
    (h : k ≤ 0 ∨ q = "") :
    search embed s₁ a q k = .error .validationError ∧
    search embed s₁ a q k = search embed s₂ a q k := by
  constructor <;> simp [search, h]

/-- Witness for C7 at `k = 0`. -/
theorem search_rejects_invalid_witness :
    search demoEmbed demoStore 1 "pay" 0 = .error .validationError ∧
    search demoEmbed demoStore 1 "pay" 0 =
      search demoEmbed VectorStore.init 1 "pay" 0 :=
  search_rejects_invalid demoEmbed demoStore VectorStore.init 1 "pay" 0
    (Or.inl (by decide))

/-- C8: a valid query against an account with zero indexed records returns
an empty successful result, not an error. -/
theorem search_empty_account (embed : String → List Int) (s : VectorStore)
    (a : Nat) (q : String) (k : Int) (hk : 1 ≤ k) (hq : q ≠ "")
    (h0 : count s a = 0) :
    search embed s a q k = .ok [] := by
  rw [search_eq_ok hk hq, query_of_count_zero h0]

/-- Witness for C8: account 3 holds no records in the demonstration store. -/
theorem search_empty_account_witness :
    search demoEmbed demoStore 3 "pay" 2 = .ok [] :=
  search_empty_account demoEmbed demoStore 3 "pay" 2 (by decide)
    (by decide) (by rfl)

/-- Ranking order implies non-decreasing distance score. -/
theorem rankLE_score {x y : RetrievalResult} (h : rankLE x y) :
    x.score ≤ y.score :=
  h.elim le_of_lt (fun h' => le_of_eq h'.1)

/-- C2: a search with a valid `k` against an account holding `n` indexed
vectors returns exactly `min(k, n)` results, ordered by non-decreasing
distance (and, in full, sorted by the ascending-distance /
descending-date-tie-break order). -/
theorem search_topk (embed : String → List Int) (s : VectorStore) (a : Nat)
    (q : String) (k : Int) (hk : 1 ≤ k) (hq : q ≠ "")
    (res : List RetrievalResult)
    (hres : search embed s a q k = .ok res) :
    res.length = min k.toNat (count s a) ∧
    List.Sorted (fun x y : RetrievalResult => x.score ≤ y.score) res ∧
    List.Sorted rankLE res := by
  rw [search_eq_ok hk hq] at hres
  have hres' : res = query s a (embed q) k.toNat := by
    have := hres.symm
    simpa using this
  subst hres'
  have hsort : List.Sorted rankLE (query s a (embed q) k.toNat) := by
    unfold query
    exact List.Pairwise.sublist (List.take_sublist _ _)
      (List.sorted_insertionSort rankLE _)
  refine ⟨?_, ?_, hsort⟩
  · unfold query count
    rw [List.length_take, List.length_insertionSort, List.length_map]
  · exact hsort.imp rankLE_score

/-- Witness for C2: `k = 1` against the two records of account 1 returns
exactly `min(1, 2) = 1` result. -/
theorem search_topk_witness :
    [demoResult1].length = min (1 : Int).toNat (count demoStore 1) ∧
    List.Sorted (fun x y : RetrievalResult => x.score ≤ y.score)
      [demoResult1] ∧
    List.Sorted rankLE [demoResult1] :=
  search_topk demoEmbed demoStore 1 "pay" 1 (by decide) (by decide)
    [demoResult1] (by rfl)

/-- Records of the cleared account survive no account-scoped filter. -/
theorem filter_cleared_account (A : Nat) (l : List VectorRecord) :
    ((l.filter (fun r => !(r.account_id == A))).filter
      (fun r => r.account_id == A)) = [] := by
  rw [List.filter_filter]
  have h : ∀ r ∈ l, ((r.account_id == A) && !(r.account_id == A))
      = (fun _ => false) r :=
    fun r _ => Bool.and_not_self _
  rw [List.filter_congr h, List.filter_false]

/-- Removing one account's records leaves any other account's records
untouched. -/
theorem filter_other_account {A B : Nat} (hBA : B ≠ A)
    (l : List VectorRecord) :
    ((l.filter (fun r => !(r.account_id == A))).filter
      (fun r => r.account_id == B)) = l.filter (fun r => r.account_id == B) := by
  rw [List.filter_filter]
  refine List.filter_congr (fun r _ => ?_)
  by_cases hB : r.account_id = B
  · have hA : ¬(r.account_id = A) := fun hc => hBA (hB ▸ hc)
    simp [hB, hA]
    exact fun hc => hBA (hc ▸ rfl)
  · simp [hB]

/-- A cleared account has record count zero. -/
theorem count_clear_account (s : VectorStore) (A : Nat) :
    count (clear_account s A) A = 0 := by
  unfold count clear_account
  simp only [filter_cleared_account]
  rfl

/-- C5: after `clear_account(A)` the account reports zero records, a valid
search against `A` returns an empty success, and every record of a distinct
account `B` is unchanged. -/
theorem clear_account_spec (embed : String → List Int) (s : VectorStore)
    (A B : Nat) (q : String) (k : Int) (hAB : A ≠ B) (hk : 1 ≤ k)
    (hq : q ≠ "") :
    (stats (clear_account s A) A).cnt = 0 ∧
    search embed (clear_account s A) A q k = .ok [] ∧
    accountRecords (clear_account s A) B = accountRecords s B := by
  refine ⟨count_clear_account s A, ?_, ?_⟩
  · rw [search_eq_ok hk hq, query_of_count_zero (count_clear_account s A)]
  · unfold accountRecords clear_account
    exact filter_other_account (Ne.symm hAB) s.records

/-- Witness for C5: clearing account 1 of the demonstration store empties it
while account 2 keeps its record. -/
theorem clear_account_spec_witness :
    (stats (clear_account demoStore 1) 1).cnt = 0 ∧
    search demoEmbed (clear_account demoStore 1) 1 "pay" 2 = .ok [] ∧
    accountRecords (clear_account demoStore 1) 2 =
      accountRecords demoStore 2 :=
  clear_account_spec demoEmbed demoStore 1 2 "pay" 2 (by decide) (by decide)
    (by decide)

/-- Upserting does not move any account's generation counter. -/
theorem genOf_upsert (s : VectorStore) (rec : VectorRecord) (a : Nat) :
    genOf (upsert s rec) a = genOf s a := by
  unfold upsert
  split <;> rfl

/-- The record stamped for a document is unchanged by first indexing that
same document (determinism of canonical text, embedding and generation). -/
theorem recordOf_indexEmail (embed : String → List Int) (s : VectorStore)
    (d : EmailDocument) :
    recordOf embed (indexEmail embed s d) d = recordOf embed s d := by
  unfold recordOf indexEmail
  rw [genOf_upsert]

/-- Upserting the same record twice equals upserting it once. -/
theorem upsert_idem (s : VectorStore) (rec : VectorRecord) :
    upsert (upsert s rec) rec = upsert s rec := by
  by_cases hg : rec.generation < genOf s rec.account_id
  · have h1 : upsert s rec = s := by simp [upsert, hg]
    rw [h1]
    exact h1
  · have h1 : upsert s rec =
        { s with records := rec :: s.records.filter (fun r => !(sameKey r rec)) } := by
      simp [upsert, hg]
    rw [h1]
    unfold upsert
    rw [if_neg (by simpa [genOf] using hg)]
    have hrec : sameKey rec rec = true := by simp [sameKey]
    simp only [List.filter_cons, hrec, Bool.not_true, List.filter_filter,
      Bool.and_self]
    rw [if_neg Bool.false_ne_true]

/-- Indexing a document leaves exactly one record under its composite key. -/
theorem keyCount_indexEmail (embed : String → List Int) (s : VectorStore)
    (d : EmailDocument) :
    keyCount (indexEmail embed s d) d.account_id d.message_id = 1 := by
  unfold keyCount indexEmail upsert
  rw [if_neg (by simp [recordOf])]
  have hkey : ∀ r : VectorRecord,
      (r.account_id == d.account_id && r.message_id == d.message_id)
        = sameKey r (recordOf embed s d) := by
    intro r
    simp [sameKey, recordOf]
  simp only [List.countP_cons]
  have hself : ((recordOf embed s d).account_id == d.account_id &&
      (recordOf embed s d).message_id == d.message_id) = true := by
    simp [recordOf]
  rw [hself]
  have hzero : (s.records.filter
      (fun r => !(sameKey r (recordOf embed s d)))).countP
        (fun r => r.account_id == d.account_id &&
          r.message_id == d.message_id) = 0 := by
    refine List.countP_eq_zero.mpr (fun r hr => ?_)
    have hmem := (List.mem_filter.mp hr).2
    rw [hkey r]
    simp only [Bool.not_eq_true'] at hmem ⊢
    simpa using hmem
  rw [hzero]
  simp

/-- C6: re-indexing an unchanged `EmailDocument` is idempotent — the store
after indexing twice equals the store after indexing once, exactly one
`VectorRecord` exists for the document's (account_id, message_id), and every
query returns the same result set as after a single indexing. -/
theorem index_twice_idempotent (embed : String → List Int) (s : VectorStore)
    (d : EmailDocument) :
    indexEmail embed (indexEmail embed s d) d = indexEmail embed s d ∧
    keyCount (indexEmail embed (indexEmail embed s d) d)
      d.account_id d.message_id = 1 ∧
    ∀ (a : Nat) (q : String) (k : Int),
      search embed (indexEmail embed (indexEmail embed s d) d) a q k =
        search embed (indexEmail embed s d) a q k := by
  have hstore : indexEmail embed (indexEmail embed s d) d
      = indexEmail embed s d := by
    show upsert (indexEmail embed s d) (recordOf embed (indexEmail embed s d) d)
      = indexEmail embed s d
    rw [recordOf_indexEmail]
    exact upsert_idem s (recordOf embed s d)
  refine ⟨hstore, ?_, ?_⟩
  · rw [hstore]
    exact keyCount_indexEmail embed s d
  · intro a q k
    rw [hstore]

/-- Budget filling preserves any property of the excerpt-independent
fields; here the agent-sent flag. -/
theorem takeBudget_flag {l : List ContextItem}
    (h : ∀ c ∈ l, c.is_sent_by_agent = false) :
    ∀ (b : Nat), ∀ c ∈ takeBudget b l, c.is_sent_by_agent = false := by
  induction l with
  | nil =>
      intro b c hc
      simp [takeBudget] at hc
  | cons i t ih =>
      intro b c hc
      simp only [takeBudget] at hc
      split at hc
      · rcases List.mem_cons.mp hc with rfl | hmem
        · exact h c (List.mem_cons_self ..)
        · exact ih (fun x hx => h x (List.mem_cons_of_mem _ hx)) _ c hmem
      · simp at hc

/-- Items surviving `fitBudget` keep their agent-sent flag value. -/
theorem fitBudget_flag {l : List ContextItem}
    (h : ∀ c ∈ l, c.is_sent_by_agent = false) (b : Nat) :
    ∀ c ∈ fitBudget b l, c.is_sent_by_agent = false := by
  cases l with
  | nil =>
      intro c hc
      simp [fitBudget] at hc
  | cons first rest =>
      intro c hc
      simp only [fitBudget] at hc
      split at hc
      · rcases List.mem_cons.mp hc with rfl | hmem
        · exact h c (List.mem_cons_self ..)
        · exact takeBudget_flag
            (fun x hx => h x (List.mem_cons_of_mem _ hx)) _ c hmem
      · rcases List.mem_cons.mp hc with rfl | hmem
        · exact h first (List.mem_cons_self ..)
        · simp at hmem

/-- Every context candidate passed the agent-sent filter. -/
theorem contextCandidates_flag (embed : String → List Int) (s : VectorStore)
    (a : Nat) (msg : String) :
    ∀ c ∈ contextCandidates embed s a msg, c.is_sent_by_agent = false := by
  intro c hc
  unfold contextCandidates at hc
  split at hc
  · simp at hc
  · obtain ⟨r, hr, rfl⟩ := List.mem_map.mp hc
    have h₂ := (List.mem_filter.mp hr).2
    simp only [Bool.not_eq_true'] at h₂
    exact h₂

/-- C3: `assemble_context` never includes an item whose source document has
`is_sent_by_agent = true`, whatever its search rank — every output item's
agent flag is false. -/
theorem assemble_context_excludes_agent (embed : String → List Int)
    (s : VectorStore) (a : Nat) (msg : String) (token_budget : Nat) :
    (assemble_context embed s a msg token_budget).all
      (fun c => !c.is_sent_by_agent) = true := by
  rw [List.all_eq_true]
  intro c hc
  unfold assemble_context at hc
  have h := fitBudget_flag (contextCandidates_flag embed s a msg)
    token_budget c hc
  simp [h]

/-- Budget filling of the tail never exceeds the remaining budget. -/
theorem totalSize_takeBudget_le (l : List ContextItem) :
    ∀ b : Nat, totalSize (takeBudget b l) ≤ b := by
  induction l with
  | nil =>
      intro b
      simp [takeBudget, totalSize]
  | cons i t ih =>
      intro b
      simp only [takeBudget]
      split
      · rename_i h
        simp only [totalSize, List.map_cons, List.sum_cons]
        have := ih (b - i.excerpt.length)
        unfold totalSize at this
        omega
      · simp [totalSize]

/-- Truncation fits the requested size. -/
theorem truncateStr_length_le (s : String) (n : Nat) :
    (truncateStr s n).length ≤ n := by
  have h : (truncateStr s n).length = (s.data.take n).length := rfl
  rw [h]
  exact List.length_take_le _ _

/-- The assembled context never exceeds the character budget. -/
theorem totalSize_fitBudget_le (l : List ContextItem) (b : Nat) :
    totalSize (fitBudget b l) ≤ b := by
  cases l with
  | nil => simp [fitBudget, totalSize]
  | cons first rest =>
      simp only [fitBudget]
      split
      · rename_i h
        simp only [totalSize, List.map_cons, List.sum_cons]
        have := totalSize_takeBudget_le rest (b - first.excerpt.length)
        unfold totalSize at this
        omega
      · simp only [totalSize, List.map_cons, List.map_nil, List.sum_cons,
          List.sum_nil]
        have := truncateStr_length_le first.excerpt b
        omega

/-- The ids kept by tail budget filling form a prefix of the input ids. -/
theorem ids_takeBudget (l : List ContextItem) :
    ∀ b : Nat, ∃ t, l.map (fun c => c.message_id)
      = (takeBudget b l).map (fun c => c.message_id) ++ t := by
  induction l with
  | nil => exact fun b => ⟨[], rfl⟩
  | cons i rest ih =>
      intro b
      simp only [takeBudget]
      split
      · obtain ⟨t, ht⟩ := ih (b - i.excerpt.length)
        exact ⟨t, by simp [List.map_cons, ht]⟩
      · exact ⟨(i :: rest).map (fun c => c.message_id), by simp⟩

/-- The ids kept by `fitBudget` form a prefix of the candidate ids: items are
only ever dropped from the low-relevance end. -/
theorem ids_fitBudget (l : List ContextItem) (b : Nat) :
    ∃ t, l.map (fun c => c.message_id)
      = (fitBudget b l).map (fun c => c.message_id) ++ t := by
  cases l with
  | nil => exact ⟨[], rfl⟩
  | cons first rest =>
      simp only [fitBudget]
      split
      · obtain ⟨t, ht⟩ := ids_takeBudget rest (b - first.excerpt.length)
        exact ⟨t, by simp [List.map_cons, ht]⟩
      · exact ⟨rest.map (fun c => c.message_id), by simp⟩

/-- Nonempty candidates yield a nonempty context: the top item is truncated,
never dropped. -/
theorem fitBudget_len (l : List ContextItem) (b : Nat) :
    min 1 l.length ≤ (fitBudget b l).length := by
  cases l with
  | nil => simp [fitBudget]
  | cons first rest =>
      simp only [fitBudget]
      split <;> simp

/-- C4: the aggregate character size of `assemble_context` output never
exceeds `token_budget`; the kept items are an initial segment of the
relevance-ordered candidates (lower-relevance items are dropped or cut off
first), and a nonempty candidate list always yields a nonempty context (the
single highest-ranked item is truncated rather than dropped when it alone
exceeds the budget). -/
theorem assemble_context_budget_bound (embed : String → List Int)
    (s : VectorStore) (a : Nat) (msg : String) (token_budget : Nat) :
    totalSize (assemble_context embed s a msg token_budget) ≤ token_budget ∧
    (∃ t, (contextCandidates embed s a msg).map (fun c => c.message_id)
      = (assemble_context embed s a msg token_budget).map
          (fun c => c.message_id) ++ t) ∧
    min 1 (contextCandidates embed s a msg).length
      ≤ (assemble_context embed s a msg token_budget).length := by
  unfold assemble_context
  exact ⟨totalSize_fitBudget_le _ _, ids_fitBudget _ _, fitBudget_len _ _⟩

/-- Counterexample to C9 as stated: when stats have loaded but report a
total of zero indexed emails, `browseAll` still requests 100 results (the
JavaScript `||` treats 0 as falsy), not the reported total of 0. -/
theorem browseAll_zero_total_counterexample :
    browseAllRequest
      (some { total_emails := 0, collection_name := "email_embeddings" }) ≠
    browseAllRequestClaimed
      (some { total_emails := 0, collection_name := "email_embeddings" }) := by
  decide

/-- C9 (amended): `browseAll` issues a semantic search with the fixed query
string `'email message'`; `n_results` equals the reported total indexed
count, falling back to 100 when stats are unavailable or when the reported
total is zero; in particular the listing is capped at 100 whenever stats
have not loaded. -/
theorem browseAll_request_amended (stats? : Option VectorStats) :
    (browseAllRequest stats?).query = "email message" ∧
    (browseAllRequest stats?).n_results =
      (match stats? with
        | none => 100
        | some st => if st.total_emails = 0 then 100 else st.total_emails) ∧
    (browseAllRequest none).n_results = 100 := by
  refine ⟨rfl, ?_, rfl⟩
  cases stats? with
  | none => rfl
  | some st => rfl

/-- C10: the notification listener suppresses a new-email notification whose
account id differs from the active account, but when no active account id is
set it displays the notification whatever account it came from. -/
theorem notification_account_filtering (a b : Int) (n : EmailNotification)
    (e : NotifEmail) (htype : n.type = "new_email")
    (hemail : n.email = some e) (hmismatch : n.account_id ≠ some a) :
    handleNotification (some a) n = none ∧
    handleNotification none n = some (toastFor e) ∧
    handleNotification none { n with account_id := some b }
      = some (toastFor e) := by
  unfold handleNotification
  rw [htype, hemail]
  simp [hmismatch]

/-- Witness for C10: a notification from account 2 is suppressed while
account 1 is active, and displayed when no account is active — whatever
account id it carries. -/
theorem notification_account_filtering_witness :
    handleNotification (some 1) demoNotif = none ∧
    handleNotification none demoNotif = some (toastFor demoNotifEmail) ∧
    handleNotification none { demoNotif with account_id := some 7 }
      = some (toastFor demoNotifEmail) :=
  notification_account_filtering 1 7 demoNotif demoNotifEmail rfl rfl
    (by decide)

end EmailAgent
